import Mathlib

set_option maxHeartbeats 1000000

/-!
Shallow embedding of the WoonnetBot core (`bot.py`, with constants from
`config.py`): price parsing, submission classification, the concurrent
application submitter, the countdown resolver, and the two listing-discovery
variants (`discover_listings_api` and
`discover_all_listings_with_categories`).

Python text is modelled as `List Char`; Python `float` results of
`_parse_price` and the countdown seconds are modelled as `ℚ` (the claims
checked here concern only exactness-independent facts: non-negativity,
`None`-propagation and decimal values that both sides round identically).
A Python function that may raise an uncaught exception is modelled as
returning an `Option`, with `none` for the raised case.
-/

abbrev Chars := List Char

/-- Config constant `APPLICATION_HOUR = 20` from `config.py`. -/
def APPLICATION_HOUR : Nat := 20

/-! ## Price parsing (`WoonnetBot._parse_price`) -/

/-- The regex substitution `re.sub(r'[^\d,]', '', price_text)`:
only digits and commas survive. -/
def stripPrice (s : Chars) : Chars :=
  s.filter (fun c => c.isDigit || c == ',')

/-- The `.replace(',', '.')` step on the stripped string. -/
def commaDot (s : Chars) : Chars :=
  s.map (fun c => if c == ',' then '.' else c)

/-- Base-10 value of a digit string; the empty string reads as 0
(used only for integer and fraction parts that exist in the input). -/
def digitsToNat (l : Chars) : Nat :=
  l.foldl (fun a c => 10 * a + (c.toNat - 48)) 0

/-- Decimal value of a string made of digits and at most one dot. -/
def decOf (s : Chars) : ℚ :=
  (digitsToNat (s.takeWhile (fun c => c != '.')) : ℚ) +
    (digitsToNat ((s.dropWhile (fun c => c != '.')).drop 1) : ℚ) /
      (10 : ℚ) ^ ((s.dropWhile (fun c => c != '.')).drop 1).length

/-- Python `float(s)` on the strings reachable from `_parse_price`
(after the substitution the argument holds only digits and dots):
it succeeds exactly when there is at least one digit and at most one dot,
and raises `ValueError` (`none`) otherwise. -/
def pyFloatDigitDot (s : Chars) : Option ℚ :=
  if s.all (fun c => c.isDigit || c == '.') && s.any (fun c => c.isDigit)
      && decide (s.countP (fun c => c == '.') ≤ 1) then
    some (decOf s)
  else
    none

/-- `WoonnetBot._parse_price`: empty text returns `0.0` (the
`if not price_text` guard); otherwise strip, replace the comma, and apply
`float`.  `none` models an uncaught `ValueError`. -/
def parse_price (s : Chars) : Option ℚ :=
  if s.isEmpty then some 0 else pyFloatDigitDot (commaDot (stripPrice s))

/-! ## Substring scanning (Python `in` on response text) -/

/-- Boolean list-prefix test (structural, for executable containment). -/
def isPrefOf : Chars → Chars → Bool
  | [], _ => true
  | _ :: _, [] => false
  | a :: as, b :: bs => a == b && isPrefOf as bs

/-- Python `needle in haystack` on strings: some suffix of the haystack
starts with the needle. -/
def occursIn (n : Chars) : Chars → Bool
  | [] => n.isEmpty
  | c :: t => isPrefOf n (c :: t) || occursIn n t

/-! ## Concurrent application submitter (`WoonnetBot.apply_to_listings`
and its inner worker `_apply_task`) -/

structure HttpResp where
  status : Nat
  text : Chars
deriving DecidableEq

/-- One `<input>` tag of the located form: `tag.get('name')` and
`tag.get('value', '')` (the value defaults to the empty string). -/
structure FormInput where
  name : Option Chars
  value : Option Chars
deriving DecidableEq

/-- Outcome of the worker's GET-and-parse phase: an exception anywhere in
it (`requests` error, HTML parse error), or a parsed page on which the
`plaats-einkomen` form was or was not found. -/
inductive FetchResult
  | exn
  | page (form : Option (List FormInput))
deriving DecidableEq

/-- Outcome of the submission POST: an exception, or a response. -/
inductive PostResult
  | exn
  | resp (r : HttpResp)
deriving DecidableEq

/-- Everything the environment decides for one listing id during
`_apply_task`: what its application page yields and what the POST yields. -/
structure ListingWorld where
  fetch : FetchResult
  post : PostResult
deriving DecidableEq

/-- The dict comprehension
`{tag.get('name'): tag.get('value', '') for tag in form.find_all('input') if tag.get('name')}`.
Modelled as an association list; Python's dict collapses duplicate names
(last wins) but every claim here depends only on the key set, which agrees. -/
def buildPayload (inputs : List FormInput) : List (Chars × Chars) :=
  inputs.filterMap (fun t =>
    match t.name with
    | some n => if n.isEmpty then none else some (n, t.value.getD [])
    | none => none)

def commandKey : Chars := "Command".data

def commandVal : Chars := "plaats-einkomen".data

def tokenField : Chars := "__RequestVerificationToken".data

/-- The payload after `payload['Command'] = 'plaats-einkomen'`. -/
def commandPayload (inputs : List FormInput) : List (Chars × Chars) :=
  buildPayload inputs ++ [(commandKey, commandVal)]

/-- Python `key in payload` on the payload dict. -/
def hasKey (p : List (Chars × Chars)) (k : Chars) : Bool :=
  p.any (fun kv => kv.1 == k)

def phrase1 : Chars := "Wij hebben uw reactie verwerkt".data

def phrase2 : Chars := "U heeft al gereageerd".data

/-- The success test of `_apply_task`: one of the two confirmation phrases
occurs in the response body; the HTTP status is never consulted. -/
def classifySubmit (r : HttpResp) : Bool :=
  occursIn phrase1 r.text || occursIn phrase2 r.text

/-- Observable result of one worker run: the boolean `_apply_task` returns,
and whether the submission POST was issued at all. -/
structure TaskTrace where
  success : Bool
  posted : Bool
deriving DecidableEq

/-- `WoonnetBot.apply_to_listings._apply_task` for one listing.  The
enclosing `try/except` converts any exception into `return False`. -/
def apply_task (w : ListingWorld) : TaskTrace :=
  match w.fetch with
  | FetchResult.exn => ⟨false, false⟩
  | FetchResult.page none => ⟨false, false⟩
  | FetchResult.page (some inputs) =>
    if hasKey (commandPayload inputs) tokenField then
      match w.post with
      | PostResult.exn => ⟨false, true⟩
      | PostResult.resp r => ⟨classifySubmit r, true⟩
    else ⟨false, false⟩

/-- Observable result of one `apply_to_listings` call.  The Python method
has no `return` statement, so its value is always `None` (`retVal`); the
aggregate `success_count` appears only in the final
"Finished. Applied to N of M" status message (`reported`). -/
structure ApplyRun where
  retVal : Option Nat
  ran : Bool
  outcomes : List (Chars × TaskTrace)
  reported : Option Nat
deriving DecidableEq

/-- The `for future in as_completed(...)` accumulation of `success_count`,
taken over the completion order of the worker pool. -/
def successCountIn (env : Chars → ListingWorld) (order : List Chars) : Nat :=
  order.foldl (fun acc i => if (apply_task (env i)).success then acc + 1 else acc) 0

/-- `WoonnetBot.apply_to_listings`.  `env` gives each listing id its page
and POST behaviour; `ids` is the submitted list; `order` is the order in
which `as_completed` yields the futures (any permutation of `ids`).
The early returns (not logged in, stop requested during the wait) skip the
submission phase entirely. -/
def apply_to_listings (loggedIn stopped : Bool) (env : Chars → ListingWorld)
    (ids order : List Chars) : ApplyRun :=
  if !loggedIn then ⟨none, false, [], none⟩
  else if stopped then ⟨none, false, [], none⟩
  else
    ⟨none, true, ids.map (fun i => (i, apply_task (env i))),
      some (successCountIn env order)⟩

/-! ## Countdown resolver (`WoonnetBot._get_server_countdown_seconds`)
and the waiter branch of `apply_to_listings` -/

/-- JSON value in the timer response, as far as `int(...)` cares:
`jnull` and `jother` make `int` raise `TypeError`; a string is parsed. -/
inductive JVal
  | jnull
  | jint (n : Int)
  | jstr (s : Chars)
  | jother
deriving DecidableEq

/-- Outcome of the timer GET: a transport error or bad status
(`requests.RequestException`, covering `raise_for_status`), an
undecodable body, or a decoded JSON object. -/
inductive TimerResp
  | transportError
  | badJson
  | ok (fields : List (Chars × JVal))
deriving DecidableEq

/-- Dict lookup `data['resterendetijd']` on the decoded object. -/
def jLookup (k : Chars) : List (Chars × JVal) → Option JVal
  | [] => none
  | kv :: rest => if kv.1 == k then some kv.2 else jLookup k rest

def digitsOnly (l : Chars) : Bool :=
  !l.isEmpty && l.all Char.isDigit

/-- Python `int(s)` for a string: optional surrounding spaces, an optional
sign, then decimal digits; anything else raises `ValueError` (`none`).
(Underscore digit grouping is not modelled.) -/
def pyIntOfChars (s : Chars) : Option Int :=
  match ((s.dropWhile (fun c => c == ' ')).reverse.dropWhile (fun c => c == ' ')).reverse with
  | '-' :: ds => if digitsOnly ds then some (-(digitsToNat ds : Int)) else none
  | '+' :: ds => if digitsOnly ds then some ((digitsToNat ds : Int)) else none
  | ds => if digitsOnly ds then some ((digitsToNat ds : Int)) else none

/-- Python `int(v)` on the field value; `none` models the caught
`ValueError`/`TypeError`. -/
def pyToInt : JVal → Option Int
  | JVal.jnull => none
  | JVal.jint n => some n
  | JVal.jstr s => pyIntOfChars s
  | JVal.jother => none

def timerKey : Chars := "resterendetijd".data

/-- `WoonnetBot._get_server_countdown_seconds`: `none` is the Python
`None` produced by the two `except` clauses; a non-positive millisecond
count is clamped to `0.0`; otherwise `remaining_ms / 1000.0`. -/
def resolveWaitSeconds : TimerResp → Option ℚ
  | TimerResp.transportError => none
  | TimerResp.badJson => none
  | TimerResp.ok fields =>
    match jLookup timerKey fields with
    | none => none
    | some v =>
      match pyToInt v with
      | none => none
      | some ms => if ms ≤ 0 then some 0 else some ((ms : ℚ) / 1000)

inductive WaitMode
  | serverCountdown
  | wallClock
deriving DecidableEq

/-- The branch `if remaining_seconds is not None and remaining_seconds > 0`
in `apply_to_listings`: anything else falls back to the wall-clock
`datetime.now().hour >= APPLICATION_HOUR` loop. -/
def waiterMode : Option ℚ → WaitMode
  | none => WaitMode.wallClock
  | some s => if 0 < s then WaitMode.serverCountdown else WaitMode.wallClock

/-! ## Listing discovery
(`WoonnetBot.discover_listings_api` and
`WoonnetBot.discover_all_listings_with_categories`) -/

/-- A Python value as it matters for `r.get(...)`, truthiness, `or` and
`str(...)` on the identifier fields. -/
inductive PyVal
  | vnone
  | vint (n : Int)
  | vstr (s : Chars)
deriving DecidableEq

def pyTruthy : PyVal → Bool
  | PyVal.vnone => false
  | PyVal.vint n => decide (n ≠ 0)
  | PyVal.vstr s => !s.isEmpty

/-- Python `a or b`. -/
def pyOr (a b : PyVal) : PyVal :=
  if pyTruthy a then a else b

def natRender (n : Nat) : Chars := Nat.toDigits 10 n

/-- Python `str(v)`: `str(None)` is the literal string `"None"`. -/
def pyStr : PyVal → Chars
  | PyVal.vnone => "None".data
  | PyVal.vint n => if n < 0 then '-' :: natRender n.natAbs else natRender n.natAbs
  | PyVal.vstr s => s

/-- One entry of the search API's `resultaten` array, restricted to the
fields the code reads. -/
structure RawResult where
  frontendId : PyVal
  advId : PyVal
  sorteringsGroep : Option Chars
deriving DecidableEq

/-- A parsed `datetime`: `ord` is its position on the time line (used for
`now >= publ_start_dt`), `hour` is `.hour`, and `hm` is the
`strftime('%H:%M')` rendering.  `_parse_publ_date` itself (string
`strptime` with format `"%B %d, %Y %H:%M:%S"`, `None` on failure) is
abstracted to its result, over which every claim quantifies. -/
structure PyDateTime where
  ord : Int
  hour : Nat
  hm : Chars
deriving DecidableEq

structure MediaItem where
  mtype : Option Chars
  fotoviewer : Option Chars
deriving DecidableEq

/-- The `Aanbod` detail object, restricted to the fields the code reads.
`publstart` holds the already-parsed publication datetime
(`none` = field missing or unparseable). -/
structure Detail where
  idv : PyVal
  publstart : Option PyDateTime
  straat : Option Chars
  huisnummer : Option Chars
  objecttype : Option Chars
  kalehuur : Option Chars
  media : List MediaItem
deriving DecidableEq

def liveText : Chars := "LIVE".data

def uitgeslotenText : Chars := "uitgesloten".data

/-- The fallback `f"{APPLICATION_HOUR}:00"` shown when no publish time
parsed. -/
def defaultHM : Chars := natRender APPLICATION_HOUR ++ ":00".data

/-- `"SELECTABLE ({} )".format(start_time_str)`. -/
def selectableText (hm : Chars) : Chars :=
  "SELECTABLE (".data ++ hm ++ " )".data

/-- `f"PREVIEW ({start_time_str})"`. -/
def previewText (hm : Chars) : Chars :=
  "PREVIEW (".data ++ hm ++ ")".data

/-- `is_live = bool(publ_start_dt and now >= publ_start_dt)`. -/
def isLiveAt (now : PyDateTime) (publ : Option PyDateTime) : Bool :=
  match publ with
  | some p => decide (p.ord ≤ now.ord)
  | none => false

/-- Status/selectability computation of `discover_listings_api`
(lines 315-324): no special case for the late day. -/
def todayStatusSel (now : PyDateTime) (publ : Option PyDateTime) : Chars × Bool :=
  let is_live := isLiveAt now publ
  let is_in_window := decide (APPLICATION_HOUR - 2 ≤ now.hour)
  let start_time_str := match publ with | some p => p.hm | none => defaultHM
  let st := if is_live then liveText
            else if is_in_window then selectableText start_time_str
            else previewText start_time_str
  (st, is_live || is_in_window)

/-- Status/selectability computation of
`discover_all_listings_with_categories` (lines 392-410), including the
`after_application_hour` override. -/
def catStatusSel (now : PyDateTime) (publ : Option PyDateTime)
    (groep : Option Chars) : Chars × Bool :=
  let is_live := isLiveAt now publ
  let is_in_window := decide (APPLICATION_HOUR - 2 ≤ now.hour)
  let notExcluded := !(groep == some uitgeslotenText)
  if decide (APPLICATION_HOUR ≤ now.hour) then
    (liveText, notExcluded)
  else
    let start_time_str := match publ with | some p => p.hm | none => defaultHM
    let st := if is_live then liveText
              else if is_in_window then selectableText start_time_str
              else previewText start_time_str
    (st, (is_live || is_in_window) && notExcluded)

/-- The listing dict built by `discover_all_listings_with_categories`. -/
structure ListingObj where
  id : Chars
  address : Chars
  objType : Chars
  price_str : Chars
  price_float : ℚ
  status_text : Chars
  is_selectable : Bool
  image_url : Option Chars
  category : Chars
deriving DecidableEq

/-- The listing dict built by `discover_listings_api` (its `id` is the raw
`item.get('id')` value and it has no category field). -/
structure TodayObj where
  id : PyVal
  address : Chars
  objType : Chars
  price_str : Chars
  price_float : ℚ
  status_text : Chars
  is_selectable : Bool
  image_url : Option Chars
deriving DecidableEq

/-- `next((m for m in media if m.get('type') == 'StraatFoto'), None)`. -/
def findStraatFoto : List MediaItem → Option MediaItem
  | [] => none
  | m :: rest => if m.mtype == some ("StraatFoto".data) then some m else findStraatFoto rest

/-- `f"https:{main_photo['fotoviewer']}" if main_photo and main_photo.get('fotoviewer') else None`. -/
def imageUrlOf (media : List MediaItem) : Option Chars :=
  match findStraatFoto media with
  | some m =>
    match m.fotoviewer with
    | some v => if v.isEmpty then none else some ("https:".data ++ v)
    | none => none
  | none => none

/-- Stable insertion of `a` into an (ascending) list: `a` is placed before
the first element it is `le` to, so earlier input elements precede equal
later ones. -/
def insSorted (le : α → α → Bool) (a : α) : List α → List α
  | [] => [a]
  | b :: t => if le a b then a :: b :: t else b :: insSorted le a t

/-- Stable ascending sort.  Python's `sorted`/`list.sort` is also stable,
and a stable ascending sort of a list under a total `le` is unique, so this
models `sorted(..., key=lambda x: x['price_float'])` exactly. -/
def insertionSort (le : α → α → Bool) : List α → List α
  | [] => []
  | a :: t => insSorted le a (insertionSort le t)

def priceLe (a b : TodayObj) : Bool := decide (a.price_float ≤ b.price_float)

def priceLeC (a b : ListingObj) : Bool := decide (a.price_float ≤ b.price_float)

/-- The body of the per-item processing loop of `discover_listings_api`;
`none` models an uncaught exception from `_parse_price`. -/
def buildTodayObj (now : PyDateTime) (item : Detail) : Option TodayObj :=
  let sc := todayStatusSel now item.publstart
  (parse_price (item.kalehuur.getD [])).map (fun pf =>
    { id := item.idv
      address := item.straat.getD [] ++ [' '] ++ item.huisnummer.getD []
      objType := item.objecttype.getD ("N/A".data)
      price_str := "€ ".data ++ item.kalehuur.getD ("0,00".data)
      price_float := pf
      status_text := sc.1
      is_selectable := sc.2
      image_url := imageUrlOf item.media })

/-- `[str(r['FrontendAdvertentieId']) for r in results if r.get('FrontendAdvertentieId')]`. -/
def todayIds (rs : List RawResult) : List Chars :=
  rs.filterMap (fun r =>
    if pyTruthy r.frontendId then some (pyStr r.frontendId) else none)

/-- Left-to-right effectful map: `none` as soon as one element raises.
This is the sequential semantics of a Python loop whose body may raise. -/
def mapOptList (f : α → Option β) : List α → Option (List β)
  | [] => some []
  | a :: as =>
    match f a with
    | none => none
    | some b => (mapOptList f as).map (fun bs => b :: bs)

/-- Per-id step of the detail loop of `discover_listings_api`: a failed
fetch (`fut.result()` raised, or `get_listing_details` returned `None`)
yields `some none` — the `continue` — while a fetched item is built
(`buildTodayObj` raising gives `none`). -/
def todayFetch (now : PyDateTime) (details : Chars → Option Detail)
    (lid : Chars) : Option (Option TodayObj) :=
  match details lid with
  | none => some none
  | some item => (buildTodayObj now item).map some

/-- The detail loop plus final `sorted(processed, key=price)` of
`discover_listings_api`, over one completion order of the pool. -/
def todayProcess (now : PyDateTime) (details : Chars → Option Detail)
    (ids : List Chars) : Option (List TodayObj) :=
  (mapOptList (todayFetch now details) ids).map
    (fun objs => insertionSort priceLe objs.reduceOption)

/-- Outcome of the search POST: a transport/decode error (caught, reported
and degraded to an empty result) or a decoded `resultaten` array. -/
inductive SearchOutcome
  | err
  | ok (rs : List RawResult)
deriving DecidableEq

/-- `WoonnetBot.discover_listings_api`.  `details` maps a listing id to the
result of `get_listing_details` (`none` for a failed fetch). -/
def discover_listings_api (loggedIn : Bool) (sr : SearchOutcome)
    (now : PyDateTime) (details : Chars → Option Detail) :
    Option (List TodayObj) :=
  if !loggedIn then some []
  else
    match sr with
    | SearchOutcome.err => some []
    | SearchOutcome.ok rs =>
      if rs.isEmpty then some []
      else todayProcess now details (todayIds rs)

/-- Python dict assignment `id_map[fid] = r`: replace in place if the key
exists, else append. -/
def upsert (m : List (Chars × RawResult)) (k : Chars) (v : RawResult) :
    List (Chars × RawResult) :=
  if m.any (fun kv => kv.1 == k) then
    m.map (fun kv => if kv.1 == k then (k, v) else kv)
  else m ++ [(k, v)]

/-- The id-collection loop of `discover_all_listings_with_categories`:
`fid = str(r.get('FrontendAdvertentieId') or r.get('AdvertentieId'))`,
skipped only when `fid` is falsy (the empty string). -/
def buildIdMap (rs : List RawResult) : List (Chars × RawResult) :=
  rs.foldl (fun m r =>
    let fid := pyStr (pyOr r.frontendId r.advId)
    if fid.isEmpty then m else upsert m fid r) []

def lowerChars (s : Chars) : Chars := s.map Char.toLower

/-- The grouping key `meta.get('SorteringsGroep', '').lower()`. -/
def catKey (meta : RawResult) : Chars :=
  lowerChars (meta.sorteringsGroep.getD [])

def unknownText : Chars := "unknown".data

/-- The per-listing build of `discover_all_listings_with_categories`:
`detail = detail_map.get(fid) or {}` makes a failed fetch behave as an
empty dict, so the listing is still built, with placeholder fields.
`none` models an uncaught exception from `_parse_price`. -/
def buildCatListing (now : PyDateTime) (fid : Chars) (meta : RawResult)
    (d : Option Detail) : Option ListingObj :=
  let publ := match d with | some dd => dd.publstart | none => none
  let sc := catStatusSel now publ meta.sorteringsGroep
  let pf := match d with
            | some dd => parse_price (dd.kalehuur.getD [])
            | none => some 0
  pf.map (fun p =>
    { id := fid
      address := match d with
                 | some dd => dd.straat.getD [] ++ [' '] ++ dd.huisnummer.getD []
                 | none => []
      objType := match d with
                 | some dd => dd.objecttype.getD ("N/A".data)
                 | none => "N/A".data
      price_str := "€ ".data ++
        (match d with
         | some dd => dd.kalehuur.getD ("0,00".data)
         | none => "0,00".data)
      price_float := p
      status_text := sc.1
      is_selectable := sc.2
      image_url := match d with | some dd => imageUrlOf dd.media | none => none
      category := meta.sorteringsGroep.getD unknownText })

def voorrangText : Chars := "voorrang".data

def geenvoorrangText : Chars := "geenvoorrang".data

abbrev CatMap := List (Chars × List ListingObj)

/-- The initial `{"voorrang": [], "geenvoorrang": [], "uitgesloten": []}`. -/
def initCats : CatMap :=
  [(voorrangText, []), (geenvoorrangText, []), (uitgeslotenText, [])]

/-- `categories.setdefault(cat, []).append(listing_obj)`. -/
def catAppend (cats : CatMap) (k : Chars) (o : ListingObj) : CatMap :=
  if cats.any (fun kv => kv.1 == k) then
    cats.map (fun kv => if kv.1 == k then (kv.1, kv.2 ++ [o]) else kv)
  else cats ++ [(k, [o])]

/-- All listing objects held in the category map, in bucket order. -/
def catsObjs (cats : CatMap) : List ListingObj :=
  (cats.map (fun kv => kv.2)).flatten

/-- The final per-category `cat_list.sort(key=lambda x: x['price_float'])`. -/
def sortCats (cats : CatMap) : CatMap :=
  cats.map (fun kv => (kv.1, insertionSort priceLeC kv.2))

/-- The per-listing loop of `discover_all_listings_with_categories` over
the collected id map, followed by the per-category sort.  `none` models an
exception (a `_parse_price` `ValueError`) escaping the loop, which runs
outside any `try`. -/
def discoverProcess (now : PyDateTime) (details : Chars → Option Detail)
    (idMap : List (Chars × RawResult)) : Option CatMap :=
  (mapOptList (fun p =>
      (buildCatListing now p.1 p.2 (details p.1)).map
        (fun o => (catKey p.2, o))) idMap).map
    (fun pairs =>
      sortCats (pairs.foldl (fun cats ko => catAppend cats ko.1 ko.2) initCats))

/-- `WoonnetBot.discover_all_listings_with_categories`.  `details` maps a
listing id to the detail-fetch result (`none` for a failed fetch; the
per-future `except` stores `None` in `detail_map`).  The outer `try` covers
only the search call, which degrades to empty categories. -/
def discover_all_listings_with_categories (loggedIn : Bool)
    (sr : SearchOutcome) (now : PyDateTime)
    (details : Chars → Option Detail) : Option CatMap :=
  if !loggedIn then some initCats
  else
    match sr with
    | SearchOutcome.err => some initCats
    | SearchOutcome.ok rs =>
      if rs.isEmpty then some initCats
      else discoverProcess now details (buildIdMap rs)

/-- Whether some category of the output holds a listing with the given id. -/
def catsContain (cats : CatMap) (i : Chars) : Bool :=
  cats.any (fun kv => kv.2.any (fun o => o.id == i))

def noneText : Chars := "None".data

/-! ## Concrete fixtures used by witnesses and counterexamples -/

/-- A listing world in which everything succeeds and the response carries
the first confirmation phrase. -/
def worldOk : ListingWorld :=
  ⟨FetchResult.page (some [⟨some tokenField, some ("tok".data)⟩]),
    PostResult.resp ⟨200, phrase1⟩⟩

/-- A listing world whose page fetch raises. -/
def worldExn : ListingWorld := ⟨FetchResult.exn, PostResult.exn⟩

/-- A listing world whose form lacks the anti-forgery token but whose POST
response would look successful. -/
def worldNoToken : ListingWorld :=
  ⟨FetchResult.page (some [⟨some ("foo".data), some ("bar".data)⟩]),
    PostResult.resp ⟨200, phrase1⟩⟩

def ids5 : List Chars := [['a'], ['b'], ['c'], ['d'], ['e']]

/-- Batch of five: exactly the worker for `['c']` raises. -/
def env5 (i : Chars) : ListingWorld := if i == ['c'] then worldExn else worldOk

def now19 : PyDateTime := ⟨100, 19, "19:00".data⟩

def now20 : PyDateTime := ⟨100, 20, "20:00".data⟩

/-- A search result carrying neither identifier field. -/
def rNoId : RawResult := ⟨PyVal.vnone, PyVal.vnone, some voorrangText⟩

/-- A search result with id "123" in the priority category. -/
def r123 : RawResult := ⟨PyVal.vstr ("123".data), PyVal.vnone, some voorrangText⟩

/-- A detail item with no parseable publish date. -/
def itemNoPubl : Detail :=
  ⟨PyVal.vstr ("7".data), none, none, none, none, some ("750,00".data), []⟩

/-- A detail item whose `kalehuur` is the digit-free string `"N/A"`. -/
def itemBadPrice : Detail :=
  ⟨PyVal.vstr ("8".data), none, none, none, none, some ("N/A".data), []⟩

/-- A detail item whose `kalehuur` holds two commas. -/
def itemBadPrice2 : Detail :=
  ⟨PyVal.vstr ("9".data), none, none, none, none, some ("1,2,3".data), []⟩

/-- Detail environment where only id "123" resolves, to the bad-price item. -/
def detailsBad (i : Chars) : Option Detail :=
  if i == "123".data then some itemBadPrice else none

/-- Detail environment where only id "123" resolves, to the two-comma item. -/
def detailsBad2 (i : Chars) : Option Detail :=
  if i == "123".data then some itemBadPrice2 else none

/-- The category map produced by a categorized discovery over `[r123]` at
19:00 when every detail fetch fails. -/
def catsW : CatMap :=
  [(voorrangText,
    [{ id := "123".data
       address := []
       objType := "N/A".data
       price_str := "€ 0,00".data
       price_float := 0
       status_text := selectableText defaultHM
       is_selectable := true
       image_url := none
       category := voorrangText }]),
   (geenvoorrangText, []),
   (uitgeslotenText, [])]

/-! ## Helper lemmas -/

theorem pyFloat_eq_some (s : Chars)
    (h : (s.all (fun c => c.isDigit || c == '.') && s.any (fun c => c.isDigit)
      && decide (s.countP (fun c => c == '.') ≤ 1)) = true) :
    pyFloatDigitDot s = some (decOf s) := by
  rw [pyFloatDigitDot, if_pos h]

theorem foldl_count (p : Chars → Bool) (l : List Chars) (n : Nat) :
    l.foldl (fun acc i => if p i then acc + 1 else acc) n = n + l.countP p := by
  induction l generalizing n with
  | nil => simp
  | cons a t ih =>
    by_cases h : p a = true
    · simp [List.countP_cons, h, ih]
      omega
    · simp [List.countP_cons, h, ih]

theorem successCountIn_eq (env : Chars → ListingWorld) (order : List Chars) :
    successCountIn env order = order.countP (fun i => (apply_task (env i)).success) := by
  rw [successCountIn, foldl_count]
  omega

theorem isPrefOf_iff (n : Chars) : ∀ h : Chars, isPrefOf n h = true ↔ n <+: h := by
  induction n with
  | nil =>
    intro h
    constructor
    · intro _
      exact ⟨h, rfl⟩
    · intro _
      rfl
  | cons a as ih =>
    intro h
    cases h with
    | nil =>
      constructor
      · intro hc
        simp [isPrefOf] at hc
      · rintro ⟨t, ht⟩
        simp at ht
    | cons b bs =>
      rw [List.cons_prefix_cons]
      simp only [isPrefOf, Bool.and_eq_true, beq_iff_eq, ih bs]

theorem occursIn_iff (n : Chars) : ∀ h : Chars, occursIn n h = true ↔ n <:+: h := by
  intro h
  induction h with
  | nil =>
    simp only [occursIn, List.isEmpty_iff]
    constructor
    · intro hn
      rw [hn]
    · intro hn
      exact List.eq_nil_of_infix_nil hn
  | cons c t ih =>
    simp only [occursIn, Bool.or_eq_true, isPrefOf_iff, ih, List.infix_cons_iff]

/-! ## Claim C8 -/

/-- Claim C8: `_parse_price` strips every character that is not a digit or
a comma, replaces the comma with a decimal point and parses the result as a
decimal number; `parse_price "€ 1.234,56" = 1234.56`, `parse_price "" = 0.0`
and `parse_price "0,00" = 0.0`. -/
theorem parse_price_spec :
    parse_price ("€ 1.234,56".data) = some (1234.56 : ℚ) ∧
    parse_price ("".data) = some 0 ∧
    parse_price ("0,00".data) = some 0 := by
  refine ⟨?_, by decide, ?_⟩
  · rw [parse_price.eq_def, if_neg (by decide),
      show commaDot (stripPrice ("€ 1.234,56".data)) = "1234.56".data from by decide,
      pyFloat_eq_some _ (by decide)]
    congr 1
    rw [decOf.eq_def,
      show List.takeWhile (fun c => c != '.') ("1234.56".data) = "1234".data from by decide,
      show (List.dropWhile (fun c => c != '.') ("1234.56".data)).drop 1 = "56".data from by decide,
      show digitsToNat ("1234".data) = 1234 from by decide,
      show digitsToNat ("56".data) = 56 from by decide,
      show ("56".data).length = 2 from by decide]
    norm_num
  · rw [parse_price.eq_def, if_neg (by decide),
      show commaDot (stripPrice ("0,00".data)) = "0.00".data from by decide,
      pyFloat_eq_some _ (by decide)]
    congr 1
    rw [decOf.eq_def,
      show List.takeWhile (fun c => c != '.') ("0.00".data) = "0".data from by decide,
      show (List.dropWhile (fun c => c != '.') ("0.00".data)).drop 1 = "00".data from by decide,
      show digitsToNat ("0".data) = 0 from by decide,
      show digitsToNat ("00".data) = 0 from by decide]
    norm_num

/-! ## Claim C4 -/

/-- Claim C4: when the built form payload lacks the anti-forgery token
field, the worker reports the listing as a failure and the submission POST
is never issued. -/
theorem token_missing_never_posts (w : ListingWorld) (inputs : List FormInput)
    (hf : w.fetch = FetchResult.page (some inputs))
    (ht : hasKey (commandPayload inputs) tokenField = false) :
    apply_task w = ⟨false, false⟩ := by
  simp [apply_task, hf, ht]

theorem token_missing_never_posts_witness :
    apply_task worldNoToken = ⟨false, false⟩ :=
  token_missing_never_posts worldNoToken [⟨some ("foo".data), some ("bar".data)⟩]
    (by decide) (by decide)

/-! ## Claim C3 -/

/-- Claim C3: a submission attempt is classified as success exactly when
the response body contains one of the two confirmation phrases; the HTTP
status code is never consulted, so a response lacking both phrases is a
failure whatever its status. -/
theorem classification_by_phrases (st : Nat) (t : Chars) (w : ListingWorld)
    (inputs : List FormInput) (r : HttpResp)
    (hf : w.fetch = FetchResult.page (some inputs))
    (ht : hasKey (commandPayload inputs) tokenField = true)
    (hp : w.post = PostResult.resp r) :
    (classifySubmit ⟨st, t⟩ = true ↔ (phrase1 <:+: t ∨ phrase2 <:+: t)) ∧
    classifySubmit ⟨st, t⟩ = classifySubmit ⟨200, t⟩ ∧
    (apply_task w).success = classifySubmit r := by
  refine ⟨?_, rfl, ?_⟩
  · simp only [classifySubmit, Bool.or_eq_true, occursIn_iff]
  · simp [apply_task, hf, ht, hp]

theorem classification_by_phrases_witness :
    (classifySubmit ⟨200, phrase1⟩ = true ↔ (phrase1 <:+: phrase1 ∨ phrase2 <:+: phrase1)) ∧
    classifySubmit ⟨200, phrase1⟩ = classifySubmit ⟨200, phrase1⟩ ∧
    (apply_task worldOk).success = classifySubmit ⟨200, phrase1⟩ :=
  classification_by_phrases 200 phrase1 worldOk
    [⟨some tokenField, some ("tok".data)⟩] ⟨200, phrase1⟩ (by decide) (by decide) (by decide)

/-! ## Claim C1 -/

/-- Claim C1 as stated is false on the code: `apply_to_listings` computes
the aggregate success count but has no `return` statement, so the value the
method returns is `None` and never the count (here one attempt succeeds,
yet `retVal` differs from `some` of the success count). -/
theorem apply_returns_count_counterexample :
    ¬ ((apply_to_listings true false (fun _ => worldOk) [['1']] [['1']]).retVal
        = some ((([['1']] : List Chars).filter
            (fun i => (apply_task ((fun _ => worldOk) i)).success)).length)) := by
  decide

/-- Claim C1 (amended): after all worker tasks complete the submitter
reports, through the status sink rather than as a return value, an
aggregate count that equals — for every input list and every completion
order of the pool — the number of attempts classified as success. -/
theorem apply_reported_count (env : Chars → ListingWorld)
    (ids order : List Chars) (h : order.Perm ids) :
    (apply_to_listings true false env ids order).reported
      = some ((ids.filter (fun i => (apply_task (env i)).success)).length) := by
  show some (successCountIn env order) = _
  rw [successCountIn_eq, h.countP_eq, List.countP_eq_length_filter]

theorem apply_reported_count_witness :
    (apply_to_listings true false env5 ids5 ids5.reverse).reported
      = some ((ids5.filter (fun i => (apply_task (env5 i)).success)).length) :=
  apply_reported_count env5 ids5 ids5.reverse (by decide)

/-! ## Claim C5 -/

/-- Claim C5: an exception raised while processing one listing is caught at
that item's boundary: that listing's outcome is a failure (with no POST),
every sibling is still classified normally, and the reported aggregate
equals the success count taken over the other listings only. -/
theorem apply_exception_isolation (env : Chars → ListingWorld)
    (ids order : List Chars) (i0 : Chars)
    (hperm : order.Perm ids) (hexn : (env i0).fetch = FetchResult.exn)
    (hmem : i0 ∈ ids) :
    (apply_to_listings true false env ids order).outcomes
      = ids.map (fun j => (j, apply_task (env j))) ∧
    (i0, (⟨false, false⟩ : TaskTrace)) ∈
      (apply_to_listings true false env ids order).outcomes ∧
    (apply_to_listings true false env ids order).reported
      = some (((ids.filter (fun i => !(i == i0))).filter
          (fun i => (apply_task (env i)).success)).length) := by
  have htask : apply_task (env i0) = ⟨false, false⟩ := by
    simp [apply_task, hexn]
  have hps : (apply_task (env i0)).success = false := by rw [htask]
  refine ⟨rfl, ?_, ?_⟩
  · exact List.mem_map.mpr ⟨i0, hmem, by rw [htask]⟩
  · have hfe : ids.filter (fun i => (apply_task (env i)).success)
        = ids.filter (fun i => (!(i == i0) && (apply_task (env i)).success)) := by
      apply List.filter_congr
      intro a _
      by_cases ha : a = i0
      · subst ha
        simp [hps]
      · simp [ha]
    show some (successCountIn env order) = _
    rw [successCountIn_eq, hperm.countP_eq, List.countP_eq_length_filter, hfe,
      ← List.filter_filter, List.filter_comm]

theorem apply_exception_isolation_witness :
    (apply_to_listings true false env5 ids5 ids5).outcomes
      = ids5.map (fun j => (j, apply_task (env5 j))) ∧
    ((['c'] : Chars), (⟨false, false⟩ : TaskTrace)) ∈
      (apply_to_listings true false env5 ids5 ids5).outcomes ∧
    (apply_to_listings true false env5 ids5 ids5).reported = some 4 := by
  have h := apply_exception_isolation env5 ids5 ids5 ['c'] (by decide) (by decide) (by decide)
  refine ⟨h.1, h.2.1, ?_⟩
  rw [h.2.2]
  decide

/-! ## Claim C6 -/

theorem resolve_nonneg (r : TimerResp) (s : ℚ)
    (h : resolveWaitSeconds r = some s) : 0 ≤ s := by
  cases r with
  | transportError => simp [resolveWaitSeconds] at h
  | badJson => simp [resolveWaitSeconds] at h
  | ok fields =>
    cases hj : jLookup timerKey fields with
    | none => simp [resolveWaitSeconds, hj] at h
    | some v =>
      cases hv : pyToInt v with
      | none => simp [resolveWaitSeconds, hj, hv] at h
      | some ms =>
        by_cases hms : ms ≤ 0
        · simp [resolveWaitSeconds, hj, hv, hms] at h
          subst h
          exact le_refl 0
        · simp [resolveWaitSeconds, hj, hv, hms] at h
          subst h
          have h0 : (0 : ℤ) < ms := by omega
          have h1 : (0 : ℚ) ≤ (ms : ℚ) := by exact_mod_cast h0.le
          exact div_nonneg h1 (by norm_num)

/-- Claim C6: the countdown resolver returns a non-negative number of
seconds, clamping any non-positive millisecond value to zero, and every
transport error, undecodable body, missing field or non-numeric field value
yields `None`, which puts the waiter into the wall-clock-hour fallback
mode. -/
theorem countdown_resolver_contract (r : TimerResp)
    (fields : List (Chars × JVal)) (v : JVal) (ms : Int) (s : ℚ) :
    (resolveWaitSeconds r = some s → 0 ≤ s) ∧
    resolveWaitSeconds TimerResp.transportError = none ∧
    resolveWaitSeconds TimerResp.badJson = none ∧
    (jLookup timerKey fields = none → resolveWaitSeconds (TimerResp.ok fields) = none) ∧
    (jLookup timerKey fields = some v → pyToInt v = none →
      resolveWaitSeconds (TimerResp.ok fields) = none) ∧
    (jLookup timerKey fields = some v → pyToInt v = some ms → ms ≤ 0 →
      resolveWaitSeconds (TimerResp.ok fields) = some 0) ∧
    (resolveWaitSeconds r = none →
      waiterMode (resolveWaitSeconds r) = WaitMode.wallClock) := by
  refine ⟨resolve_nonneg r s, rfl, rfl, ?_, ?_, ?_, ?_⟩
  · intro hj
    simp [resolveWaitSeconds, hj]
  · intro hj hv
    simp [resolveWaitSeconds, hj, hv]
  · intro hj hv hms
    simp [resolveWaitSeconds, hj, hv, hms]
  · intro hn
    rw [hn]
    rfl

theorem countdown_resolver_contract_witness :
    (0 : ℚ) ≤ ((5000 : Int) : ℚ) / 1000 ∧
    resolveWaitSeconds (TimerResp.ok [(timerKey, JVal.jnull)]) = none ∧
    resolveWaitSeconds (TimerResp.ok [(timerKey, JVal.jint (-3))]) = some 0 ∧
    waiterMode (resolveWaitSeconds TimerResp.transportError) = WaitMode.wallClock := by
  have h0 := countdown_resolver_contract (TimerResp.ok [(timerKey, JVal.jint 5000)])
    [(timerKey, JVal.jnull)] JVal.jnull 0 (((5000 : Int) : ℚ) / 1000)
  have h2 := countdown_resolver_contract TimerResp.transportError
    [(timerKey, JVal.jint (-3))] (JVal.jint (-3)) (-3) 0
  exact ⟨h0.1 rfl, h0.2.2.2.2.1 (by decide) rfl,
    h2.2.2.2.2.2.1 (by decide) rfl (by decide),
    h2.2.2.2.2.2.2 h2.2.1⟩

/-! ## Discovery helper lemmas -/

theorem mapOptList_cons_some {α β : Type} (f : α → Option β) (a : α)
    (t : List α) (b : β) (h : f a = some b) :
    mapOptList f (a :: t) = (mapOptList f t).map (fun bs => b :: bs) := by
  simp [mapOptList, h]

theorem mapOptList_cons_none {α β : Type} (f : α → Option β) (a : α)
    (t : List α) (h : f a = none) :
    mapOptList f (a :: t) = none := by
  simp [mapOptList, h]

theorem mapOptList_mem {α β : Type} (f : α → Option β) :
    ∀ (l : List α) (bs : List β), mapOptList f l = some bs →
      ∀ a ∈ l, ∃ b, f a = some b ∧ b ∈ bs := by
  intro l
  induction l with
  | nil =>
    intro bs h a ha
    cases ha
  | cons x t ih =>
    intro bs h a ha
    cases hx : f x with
    | none =>
      rw [mapOptList_cons_none f x t hx] at h
      cases h
    | some b0 =>
      rw [mapOptList_cons_some f x t b0 hx, Option.map_eq_some'] at h
      obtain ⟨ts, hts, hbs⟩ := h
      subst hbs
      rcases List.mem_cons.mp ha with rfl | hat
      · exact ⟨b0, hx, List.mem_cons_self _ _⟩
      · obtain ⟨b, hb, hbmem⟩ := ih ts hts a hat
        exact ⟨b, hb, List.mem_cons_of_mem _ hbmem⟩

theorem mapOptList_none_of_mem {α β : Type} (f : α → Option β) :
    ∀ (l : List α) (a : α), a ∈ l → f a = none → mapOptList f l = none := by
  intro l
  induction l with
  | nil =>
    intro a ha
    cases ha
  | cons x t ih =>
    intro a ha hfa
    rcases List.mem_cons.mp ha with rfl | hat
    · exact mapOptList_cons_none f a t hfa
    · cases hx : f x with
      | none => exact mapOptList_cons_none f x t hx
      | some b => rw [mapOptList_cons_some f x t b hx, ih a hat hfa]; rfl

theorem mem_insSorted {α : Type} (le : α → α → Bool) (a x : α) :
    ∀ l : List α, x ∈ insSorted le a l ↔ x = a ∨ x ∈ l := by
  intro l
  induction l with
  | nil => simp [insSorted]
  | cons b t ih =>
    by_cases h : le a b = true
    · simp [insSorted, h, List.mem_cons]
    · have h2 : le a b = false := by
        cases hb : le a b
        · rfl
        · exact absurd hb h
      simp only [insSorted, h2, Bool.false_eq_true, if_false, List.mem_cons, ih]
      tauto

theorem mem_insertionSort {α : Type} (le : α → α → Bool) (x : α) :
    ∀ l : List α, x ∈ insertionSort le l ↔ x ∈ l := by
  intro l
  induction l with
  | nil => simp [insertionSort]
  | cons a t ih => simp [insertionSort, mem_insSorted, ih, List.mem_cons]

theorem mem_catsObjs (cats : CatMap) (x : ListingObj) :
    x ∈ catsObjs cats ↔ ∃ kv ∈ cats, x ∈ kv.2 := by
  simp only [catsObjs, List.mem_flatten, List.mem_map]
  constructor
  · rintro ⟨l, ⟨kv, hkv, rfl⟩, hx⟩
    exact ⟨kv, hkv, hx⟩
  · rintro ⟨kv, hkv, hx⟩
    exact ⟨kv.2, ⟨kv, hkv, rfl⟩, hx⟩

theorem catsObjs_catAppend (cats : CatMap) (k : Chars) (o x : ListingObj) :
    x ∈ catsObjs (catAppend cats k o) ↔ x = o ∨ x ∈ catsObjs cats := by
  rw [catAppend]
  by_cases hany : cats.any (fun kv => kv.1 == k) = true
  · rw [if_pos hany, mem_catsObjs, mem_catsObjs]
    constructor
    · rintro ⟨kv2, hkv2, hx⟩
      obtain ⟨kv, hkv, rfl⟩ := List.mem_map.mp hkv2
      by_cases hk : (kv.1 == k) = true
      · rw [if_pos hk] at hx
        rcases List.mem_append.mp hx with h1 | h2
        · exact Or.inr ⟨kv, hkv, h1⟩
        · rw [List.mem_singleton] at h2
          exact Or.inl h2
      · rw [if_neg hk] at hx
        exact Or.inr ⟨kv, hkv, hx⟩
    · rintro (rfl | ⟨kv, hkv, hx⟩)
      · obtain ⟨kv0, hkv0, hk0⟩ := List.any_eq_true.mp hany
        refine ⟨(kv0.1, kv0.2 ++ [x]), List.mem_map.mpr ⟨kv0, hkv0, by rw [if_pos hk0]⟩, ?_⟩
        simp
      · by_cases hk : (kv.1 == k) = true
        · exact ⟨(kv.1, kv.2 ++ [o]), List.mem_map.mpr ⟨kv, hkv, by rw [if_pos hk]⟩,
            List.mem_append.mpr (Or.inl hx)⟩
        · exact ⟨kv, List.mem_map.mpr ⟨kv, hkv, by rw [if_neg hk]⟩, hx⟩
  · rw [if_neg hany, mem_catsObjs, mem_catsObjs]
    constructor
    · rintro ⟨kv, hkv, hx⟩
      rcases List.mem_append.mp hkv with h1 | h2
      · exact Or.inr ⟨kv, h1, hx⟩
      · rw [List.mem_singleton] at h2
        subst h2
        rw [List.mem_singleton] at hx
        exact Or.inl hx
    · rintro (rfl | ⟨kv, hkv, hx⟩)
      · exact ⟨(k, [x]), List.mem_append.mpr (Or.inr (by simp)), by simp⟩
      · exact ⟨kv, List.mem_append.mpr (Or.inl hkv), hx⟩

theorem catsObjs_fold_mono (pairs : List (Chars × ListingObj)) :
    ∀ (cats : CatMap) (x : ListingObj), x ∈ catsObjs cats →
      x ∈ catsObjs (pairs.foldl (fun c ko => catAppend c ko.1 ko.2) cats) := by
  induction pairs with
  | nil =>
    intro cats x hx
    exact hx
  | cons p t ih =>
    intro cats x hx
    exact ih _ x ((catsObjs_catAppend _ _ _ _).mpr (Or.inr hx))

theorem catsObjs_fold_mem (pairs : List (Chars × ListingObj)) :
    ∀ (cats : CatMap) (k : Chars) (o : ListingObj), (k, o) ∈ pairs →
      o ∈ catsObjs (pairs.foldl (fun c ko => catAppend c ko.1 ko.2) cats) := by
  induction pairs with
  | nil =>
    intro cats k o h
    cases h
  | cons p t ih =>
    intro cats k o h
    rcases List.mem_cons.mp h with rfl | ht
    · exact catsObjs_fold_mono t _ o ((catsObjs_catAppend _ _ _ _).mpr (Or.inl rfl))
    · exact ih _ k o ht

theorem mem_catsObjs_sortCats (cats : CatMap) (x : ListingObj) :
    x ∈ catsObjs (sortCats cats) ↔ x ∈ catsObjs cats := by
  rw [mem_catsObjs, mem_catsObjs]
  constructor
  · rintro ⟨kv2, hkv2, hx⟩
    obtain ⟨kv, hkv, rfl⟩ := List.mem_map.mp hkv2
    exact ⟨kv, hkv, (mem_insertionSort _ _ _).mp hx⟩
  · rintro ⟨kv, hkv, hx⟩
    exact ⟨(kv.1, insertionSort priceLeC kv.2), List.mem_map.mpr ⟨kv, hkv, rfl⟩,
      (mem_insertionSort _ _ _).mpr hx⟩

theorem buildCatListing_id (now : PyDateTime) (fid : Chars) (meta : RawResult)
    (d : Option Detail) (o : ListingObj)
    (h : buildCatListing now fid meta d = some o) : o.id = fid := by
  simp only [buildCatListing, Option.map_eq_some'] at h
  obtain ⟨p, hp, ho⟩ := h
  rw [← ho]

theorem discoverProcess_mem (now : PyDateTime) (details : Chars → Option Detail)
    (idMap : List (Chars × RawResult)) (cats : CatMap) (fid : Chars)
    (meta : RawResult) (h : discoverProcess now details idMap = some cats)
    (hmem : (fid, meta) ∈ idMap) : catsContain cats fid = true := by
  simp only [discoverProcess, Option.map_eq_some'] at h
  obtain ⟨pairs, hpairs, hcats⟩ := h
  subst hcats
  obtain ⟨ko, hko, hkomem⟩ := mapOptList_mem _ idMap pairs hpairs (fid, meta) hmem
  rw [Option.map_eq_some'] at hko
  obtain ⟨o, ho, hko2⟩ := hko
  subst hko2
  have hid : o.id = fid := buildCatListing_id now fid meta (details fid) o ho
  have hobj : o ∈ catsObjs (sortCats
      (pairs.foldl (fun c ko => catAppend c ko.1 ko.2) initCats)) := by
    rw [mem_catsObjs_sortCats]
    exact catsObjs_fold_mem pairs initCats (catKey meta) o hkomem
  rw [mem_catsObjs] at hobj
  obtain ⟨kv, hkv, hxkv⟩ := hobj
  refine List.any_eq_true.mpr ⟨kv, hkv, List.any_eq_true.mpr ⟨o, hxkv, ?_⟩⟩
  rw [hid]
  exact beq_self_eq_true fid

theorem discover_all_unfold (now : PyDateTime) (rs : List RawResult)
    (details : Chars → Option Detail) (h : rs.isEmpty = false) :
    discover_all_listings_with_categories true (SearchOutcome.ok rs) now details
      = discoverProcess now details (buildIdMap rs) := by
  simp [discover_all_listings_with_categories, h]

theorem todayFetch_skip (now : PyDateTime) (details : Chars → Option Detail)
    (lid : Chars) (h : details lid = none) :
    ∀ ids : List Chars,
      (mapOptList (todayFetch now details) ids).map List.reduceOption
        = (mapOptList (todayFetch now details)
            (ids.filter (fun i => !(i == lid)))).map List.reduceOption := by
  intro ids
  induction ids with
  | nil => rfl
  | cons a t ih =>
    by_cases ha : (a == lid) = true
    · have ha2 : a = lid := eq_of_beq ha
      have hfa : todayFetch now details a = some none := by
        rw [ha2]
        simp [todayFetch, h]
      have hfil : (a :: t).filter (fun i => !(i == lid))
          = t.filter (fun i => !(i == lid)) := by
        simp [List.filter_cons, ha]
      rw [hfil, mapOptList_cons_some _ a t none hfa, Option.map_map]
      have hc : (List.reduceOption ∘ fun bs => (none : Option TodayObj) :: bs)
          = List.reduceOption := by
        funext l
        simp
      rw [hc, ih]
    · have hfil : (a :: t).filter (fun i => !(i == lid))
          = a :: t.filter (fun i => !(i == lid)) := by
        simp [List.filter_cons, ha]
      rw [hfil]
      cases hfa : todayFetch now details a with
      | none => rw [mapOptList_cons_none _ a _ hfa, mapOptList_cons_none _ a _ hfa]
      | some b =>
        cases b with
        | none =>
          rw [mapOptList_cons_some _ a _ none hfa, mapOptList_cons_some _ a _ none hfa,
            Option.map_map, Option.map_map]
          have hc : (List.reduceOption ∘ fun bs => (none : Option TodayObj) :: bs)
              = List.reduceOption := by
            funext l
            simp
          rw [hc, ih]
        | some o =>
          rw [mapOptList_cons_some _ a _ (some o) hfa, mapOptList_cons_some _ a _ (some o) hfa,
            Option.map_map, Option.map_map]
          have hc : (List.reduceOption ∘ fun bs => some o :: bs)
              = (fun r => o :: r) ∘ List.reduceOption := by
            funext l
            simp
          rw [hc, ← Option.map_map, ← Option.map_map, ih]

theorem todayProcess_skip (now : PyDateTime) (details : Chars → Option Detail)
    (lid : Chars) (h : details lid = none) (ids : List Chars) :
    todayProcess now details ids
      = todayProcess now details (ids.filter (fun i => !(i == lid))) := by
  simp only [todayProcess]
  have e1 : ∀ (x : Option (List (Option TodayObj))),
      x.map (fun objs => insertionSort priceLe objs.reduceOption)
        = (x.map List.reduceOption).map (insertionSort priceLe) := by
    intro x
    cases x <;> rfl
  rw [e1, e1, todayFetch_skip now details lid h ids]

theorem selectableText_ne_live (s : Chars) : ¬ selectableText s = liveText := by
  intro h
  have h2 : (some 'S' : Option Char) = some 'L' := congrArg List.head? h
  exact absurd h2 (by decide)

/-! ## Claim C7 -/

/-- Claim C7 as stated is false on `discover_listings_api`: at hour 20
(the application hour) a listing with no parsed publish timestamp is built
with statusText "SELECTABLE (20:00 )", not "LIVE" — the late-day override
exists only in the categorized variant.  (The listing is selectable.) -/
theorem late_day_override_counterexample :
    APPLICATION_HOUR ≤ now20.hour ∧
    (buildTodayObj now20 itemNoPubl).map (fun o => o.status_text)
      = some (selectableText defaultHM) ∧
    ¬ selectableText defaultHM = liveText ∧
    (buildTodayObj now20 itemNoPubl).map (fun o => o.is_selectable) = some true := by
  refine ⟨by decide, by decide, by decide, by decide⟩

/-- Claim C7 (amended): once the wall-clock hour reaches the application
hour, categorized discovery gives every listing statusText "LIVE" whatever
its publish timestamp and makes exactly the non-excluded listings
selectable; today-only discovery makes every listing selectable but keeps
statusText "LIVE" only for listings whose publish timestamp has passed. -/
theorem late_day_status (now : PyDateTime) (publ : Option PyDateTime)
    (groep : Option Chars) (h : APPLICATION_HOUR ≤ now.hour) :
    (catStatusSel now publ groep).1 = liveText ∧
    (catStatusSel now publ groep).2 = !(groep == some uitgeslotenText) ∧
    (todayStatusSel now publ).2 = true ∧
    ((todayStatusSel now publ).1 = liveText ↔ isLiveAt now publ = true) := by
  have hwin : APPLICATION_HOUR - 2 ≤ now.hour := by omega
  refine ⟨by simp [catStatusSel, h], by simp [catStatusSel, h], by simp [todayStatusSel, hwin], ?_⟩
  by_cases hl : isLiveAt now publ = true
  · simp [todayStatusSel, hl]
  · simp only [Bool.not_eq_true] at hl
    cases publ with
    | none =>
      rw [show (todayStatusSel now none).1 = selectableText defaultHM from by
        simp [todayStatusSel, hl, hwin]]
      constructor
      · intro hEq
        exact absurd hEq (selectableText_ne_live _)
      · intro hLive
        rw [hl] at hLive
        cases hLive
    | some p =>
      rw [show (todayStatusSel now (some p)).1 = selectableText p.hm from by
        simp [todayStatusSel, hl, hwin]]
      constructor
      · intro hEq
        exact absurd hEq (selectableText_ne_live _)
      · intro hLive
        rw [hl] at hLive
        cases hLive

theorem late_day_status_witness :
    (catStatusSel now20 none (some voorrangText)).1 = liveText ∧
    (catStatusSel now20 none (some voorrangText)).2
      = !((some voorrangText : Option Chars) == some uitgeslotenText) ∧
    (todayStatusSel now20 none).2 = true ∧
    ((todayStatusSel now20 none).1 = liveText ↔ isLiveAt now20 none = true) :=
  late_day_status now20 none (some voorrangText) (by decide)

/-! ## Claim C10 -/

/-- Claim C10: a search result lacking both identifier fields is not
dropped by categorized discovery: `str(None)` yields the literal id
"None", which passes the emptiness check, and the returned categories then
contain a listing whose id is the string "None". -/
theorem missing_ids_produce_None_listing :
    pyStr (pyOr PyVal.vnone PyVal.vnone) = noneText ∧
    noneText.isEmpty = false ∧
    (discover_all_listings_with_categories true (SearchOutcome.ok [rNoId]) now19
        (fun _ => none)).map (fun cats => catsContain cats noneText) = some true := by
  refine ⟨rfl, rfl, by decide⟩

/-! ## Claim C2 -/

/-- Claim C2 as stated is false on `discover_all_listings_with_categories`:
here the only listing's detail fetch fails for every id, yet the listing
with id "123" still appears in the returned categories (with placeholder
fields) instead of being dropped. -/
theorem failed_detail_not_dropped_counterexample :
    (discover_all_listings_with_categories true (SearchOutcome.ok [r123]) now19
        (fun _ => none)).map (fun cats => catsContain cats ("123".data)) = some true := by
  decide

/-- Claim C2 (amended): a failed per-listing detail fetch never aborts the
rest of the batch, but only `discover_listings_api` drops the listing
silently (its output equals the output over the ids with the failed one
removed); in `discover_all_listings_with_categories` the listing whose
detail fetch failed still appears in the returned categories, built from an
empty detail. -/
theorem detail_fetch_failure_behavior (now : PyDateTime)
    (details : Chars → Option Detail) (ids : List Chars) (lid : Chars)
    (rs : List RawResult) (cats : CatMap) (fid : Chars) (meta : RawResult)
    (h1 : details lid = none)
    (h2 : discover_all_listings_with_categories true (SearchOutcome.ok rs) now details
        = some cats)
    (h3 : (fid, meta) ∈ buildIdMap rs)
    (_h4 : details fid = none) :
    todayProcess now details ids
      = todayProcess now details (ids.filter (fun i => !(i == lid))) ∧
    catsContain cats fid = true := by
  refine ⟨todayProcess_skip now details lid h1 ids, ?_⟩
  have hne : rs.isEmpty = false := by
    cases rs with
    | nil => simp [buildIdMap] at h3
    | cons a t => rfl
  rw [discover_all_unfold now rs details hne] at h2
  exact discoverProcess_mem now details (buildIdMap rs) cats fid meta h2 h3

theorem detail_fetch_failure_behavior_witness :
    todayProcess now19 (fun _ => none) [['9']]
      = todayProcess now19 (fun _ => none)
          (([['9']] : List Chars).filter (fun i => !(i == ['9']))) ∧
    catsContain catsW ("123".data) = true :=
  detail_fetch_failure_behavior now19 (fun _ => none) [['9']] ['9'] [r123] catsW
    ("123".data) r123 rfl (by decide) (by decide) rfl

theorem commaDot_stripPrice_anyDigit (s : Chars) :
    (commaDot (stripPrice s)).any (fun c => c.isDigit) = s.any (fun c => c.isDigit) := by
  rw [commaDot, stripPrice, List.any_map, List.any_filter]
  congr 1
  funext a
  cases hb : a == ','
  · cases hd : a.isDigit
    · simp [Function.comp, hb, hd]
    · simp [Function.comp, hb, hd]
  · have ha : a = ',' := eq_of_beq hb
    subst ha
    decide

theorem commaDot_stripPrice_countDot (s : Chars) :
    (commaDot (stripPrice s)).countP (fun c => c == '.')
      = s.countP (fun c => c == ',') := by
  rw [commaDot, stripPrice, List.countP_map, List.countP_filter]
  congr 1
  funext a
  cases hb : a == ','
  · cases hc : a == '.'
    · simp [Function.comp, hb, hc]
    · have ha : a = '.' := eq_of_beq hc
      subst ha
      decide
  · have ha : a = ',' := eq_of_beq hb
    subst ha
    decide

/-! ## Claim C9 -/

/-- Claim C9: `_parse_price` is partial on non-empty inputs — a price
string with no digit at all, or with more than one comma, raises
`ValueError` — and because the categorized-discovery loop calls it outside
any exception handler, such a price string makes the whole
`discover_all_listings_with_categories` call raise to its caller instead of
degrading to empty results. -/
theorem price_valueerror_propagates (s : Chars) (now : PyDateTime)
    (rs : List RawResult) (details : Chars → Option Detail)
    (fid : Chars) (meta : RawResult) (d : Detail)
    (hs : ¬ s = [])
    (hbad : s.any (fun c => c.isDigit) = false ∨ 2 ≤ s.countP (fun c => c == ','))
    (hmem : (fid, meta) ∈ buildIdMap rs)
    (hd : details fid = some d)
    (hk : d.kalehuur = some s) :
    parse_price s = none ∧
    discover_all_listings_with_categories true (SearchOutcome.ok rs) now details
      = none := by
  have hie : s.isEmpty = false := by
    cases s with
    | nil => exact absurd rfl hs
    | cons a t => rfl
  have hpp : parse_price s = none := by
    rw [parse_price.eq_def, hie, if_neg (by decide), pyFloatDigitDot.eq_def]
    refine if_neg ?_
    intro hcond
    rw [Bool.and_eq_true, Bool.and_eq_true] at hcond
    obtain ⟨⟨hall, hany⟩, hcnt⟩ := hcond
    rcases hbad with hnd | hcm
    · rw [commaDot_stripPrice_anyDigit, hnd] at hany
      cases hany
    · have hle := of_decide_eq_true hcnt
      rw [commaDot_stripPrice_countDot] at hle
      omega
  refine ⟨hpp, ?_⟩
  have hbuild : buildCatListing now fid meta (details fid) = none := by
    rw [hd]
    simp only [buildCatListing]
    simp [hk, hpp]
  have hnone : mapOptList (fun p =>
      (buildCatListing now p.1 p.2 (details p.1)).map
        (fun o => (catKey p.2, o))) (buildIdMap rs) = none := by
    apply mapOptList_none_of_mem _ (buildIdMap rs) (fid, meta) hmem
    show (buildCatListing now fid meta (details fid)).map
      (fun o => (catKey meta, o)) = none
    rw [hbuild]
    rfl
  have hne : rs.isEmpty = false := by
    cases rs with
    | nil => simp [buildIdMap] at hmem
    | cons a t => rfl
  rw [discover_all_unfold now rs details hne]
  simp only [discoverProcess]
  rw [hnone]
  rfl

theorem price_valueerror_propagates_witness :
    (parse_price ("N/A".data) = none ∧
      discover_all_listings_with_categories true (SearchOutcome.ok [r123]) now19
        detailsBad = none) ∧
    (parse_price ("1,2,3".data) = none ∧
      discover_all_listings_with_categories true (SearchOutcome.ok [r123]) now19
        detailsBad2 = none) := by
  constructor
  · exact price_valueerror_propagates ("N/A".data) now19 [r123] detailsBad
      ("123".data) r123 itemBadPrice (by decide) (Or.inl (by decide)) (by decide)
      (by decide) rfl
  · exact price_valueerror_propagates ("1,2,3".data) now19 [r123] detailsBad2
      ("123".data) r123 itemBadPrice2 (by decide) (Or.inr (by decide)) (by decide)
      (by decide) rfl
